import Mathlib

/-!
Shallow embedding of the FOMO-Bot event-analysis pipeline
(src/backend/llm_analyzer.py and src/backend/scraper.py).

Python dict values are modelled by the inductive `Value`; fallible
operations return `Option`; the database state is passed explicitly.
-/

namespace FomoBot

/-- Python values as they occur in the analyzer's dicts: None, strings,
integers, booleans, lists and (insertion-ordered) dicts. -/
inductive Value : Type where
  | vNone : Value
  | vStr : String → Value
  | vInt : Int → Value
  | vBool : Bool → Value
  | vList : List Value → Value
  | vDict : List (String × Value) → Value
deriving Repr

open Value

/-- Python truthiness (`if not x`): None, False, 0, "", [] and the empty
dict are falsy. -/
def pyTruthy : Value → Bool
  | vNone => false
  | vStr s => s ≠ ""
  | vInt n => n ≠ 0
  | vBool b => b
  | vList l => !l.isEmpty
  | vDict l => !l.isEmpty

/-- First binding of key `k` in a dict value (Python dict lookup;
`none` when `k` is absent or the value is not a dict). -/
def dictLookup (v : Value) (k : String) : Option Value :=
  match v with
  | vDict l => (l.find? (fun p => p.1 = k)).map (fun p => p.2)
  | _ => none

/-- Python `d.get(k, default)`. -/
def dictGetD (v : Value) (k : String) (d : Value) : Value :=
  (dictLookup v k).getD d

/-- Whether a dict value carries key `k`. -/
def hasKey (v : Value) (k : String) : Bool :=
  (dictLookup v k).isSome

/-- The integer stored under key `k`, when the dict holds one there. -/
def getIntField (v : Value) (k : String) : Option Int :=
  match dictLookup v k with
  | some (Value.vInt n) => some n
  | _ => none

/-- The string stored under key `k`, when the dict holds one there. -/
def getStrField (v : Value) (k : String) : Option String :=
  match dictLookup v k with
  | some (Value.vStr s) => some s
  | _ => none

/-- `listPrefixOf sub s`: `sub` is a prefix of `s` (Python
`startswith`). -/
def listPrefixOf : List Char → List Char → Bool
  | [], _ => true
  | _ :: _, [] => false
  | a :: as, b :: bs => if a = b then listPrefixOf as bs else false

/-- `listSuffixOf sub s`: `sub` is a suffix of `s` (Python `endswith`). -/
def listSuffixOf (sub s : List Char) : Bool :=
  listPrefixOf sub.reverse s.reverse

/-- `listInfixOf sub s`: `sub` occurs contiguously inside `s` (Python
`in`). -/
def listInfixOf (sub : List Char) : List Char → Bool
  | [] => listPrefixOf sub []
  | b :: bs => listPrefixOf sub (b :: bs) || listInfixOf sub bs

/-- Substring containment, Python's `sub in s`. -/
def strContains (s sub : String) : Bool :=
  listInfixOf sub.data s.data

/-- Python `str.strip()`: leading and trailing whitespace removed. -/
def pyStrip (l : List Char) : List Char :=
  ((l.dropWhile Char.isWhitespace).reverse.dropWhile Char.isWhitespace).reverse

/-- Python `str.lower()` (ASCII, which is all the scanned keywords
need). -/
def lowerChars (l : List Char) : List Char :=
  l.map Char.toLower

/-- Python `str.split('\n')`. -/
def splitLines : List Char → List (List Char)
  | [] => [[]]
  | c :: cs =>
    match splitLines cs with
    | [] => [[c]]
    | l :: ls => if c = '\n' then [] :: l :: ls else (c :: l) :: ls

/-- Python `int` on a string of decimal digits. -/
def digitsToNat (l : List Char) : Nat :=
  l.foldl (fun a c => a * 10 + (c.toNat - 48)) 0

/-- Python `x or default` on an optional string, where the empty string is
falsy. -/
def pyOrStr (o : Option String) (d : String) : String :=
  match o with
  | some s => if s = "" then d else s
  | none => d

/-- Python `x or default` on a stored value (used when rebuilding the
memoized return dict from a stored row). -/
def pyOrVal (v : Value) (d : Value) : Value :=
  if pyTruthy v then v else d

/-! ## `_parse_analysis` (llm_analyzer.py lines 303-362) -/

/-- The digit-scan of the fallback path: all digits of the line
concatenated and read as one decimal number (Python
`int(''.join(filter(str.isdigit, line)))`); `none` when the line has no
digit (Python `int('')` raises and the `except: pass` swallows it). -/
def lineDigitsValue (line : List Char) : Option Nat :=
  let ds := line.filter Char.isDigit
  if ds.isEmpty then none else some (digitsToNat ds)

/-- One step of the impact-score scan: a line containing "impact"
(case-insensitively) and at least one digit, whose concatenated digits
lie in 1..10, overwrites the current score. -/
def impactStep (score : Nat) (line : List Char) : Nat :=
  if listInfixOf "impact".data (lowerChars line) && line.any Char.isDigit then
    match lineDigitsValue line with
    | some s => if 1 ≤ s && s ≤ 10 then s else score
    | none => score
  else score

/-- The impact score recovered by the fallback scan over the raw response
text's lines, defaulting to 5. -/
def fallbackImpact (analysis_text : String) : Nat :=
  (splitLines analysis_text.data).foldl impactStep 5

/-- The sentiment recovered by the fallback scan: "bullish" wins over
"bearish"; default "neutral". -/
def fallbackSentiment (analysis_text : String) : String :=
  let text_lower := lowerChars analysis_text.data
  if listInfixOf "bullish".data text_lower then "bullish"
  else if listInfixOf "bearish".data text_lower then "bearish"
  else "neutral"

/-- The dict built by the heuristic fallback path of `_parse_analysis`. -/
def fallbackDict (analysis_text : String) : Value :=
  vDict [
    ("event_description", vStr "Event description not available in this format."),
    ("analysis_text", vStr analysis_text),
    ("impact_score", vInt (fallbackImpact analysis_text)),
    ("sentiment_summary", vStr (fallbackSentiment analysis_text)),
    ("key_factors", vList []),
    ("expert_commentary", vStr "Expert commentary not available in this format.")]

/-- The dict returned by `_parse_analysis`'s outer `except` branch (reached
when `json.loads` raises on a "\x7b"-prefixed cleaned text). -/
def parseErrorDict (analysis_text : String) : Value :=
  vDict [
    ("event_description", vStr "Event description not available due to parsing error."),
    ("analysis_text", vStr analysis_text),
    ("impact_score", vInt 5),
    ("sentiment_summary", vStr "neutral"),
    ("key_factors", vList []),
    ("expert_commentary", vStr "Expert commentary not available due to parsing error.")]

/-- The markdown-fence cleaning at the top of `_parse_analysis`. -/
def cleanedText (analysis_text : String) : List Char :=
  let c := pyStrip analysis_text.data
  let c := if listPrefixOf "```json".data c then c.drop 7 else c
  let c := if listSuffixOf "```".data c then c.take (c.length - 3) else c
  pyStrip c

/-- `_parse_analysis`: strict JSON parse (through the parameter `jp`
standing for `json.loads`, `none` modelling a raised exception) when the
cleaned text starts with an opening brace, else the heuristic fallback;
the source's unused `event_data` argument is dropped. -/
def parse_analysis (jp : List Char → Option Value) (analysis_text : String) : Value :=
  let cleaned := cleanedText analysis_text
  if cleaned.head? = some '\x7b' then
    match jp cleaned with
    | some parsed_json => parsed_json
    | none => parseErrorDict analysis_text
  else
    fallbackDict analysis_text

/-! ## Database rows (models.py) and analyzer state -/

/-- A row of `economic_events` (models.py lines 34-47). -/
structure EventRow where
  id : Nat
  date : String
  market_id : Option Nat
  time : Option String
  currency : Option String
  importance : Option String
  event_name : String
  actual : Option String
  forecast : Option String
  previous : Option String
  source_url : Option String
deriving Repr, DecidableEq

/-- A row of `event_analyses` (models.py lines 53-65); the LLM-derived
columns hold whatever `Value` the parsed dict supplied. -/
structure AnalysisRow where
  id : Nat
  event_id : Nat
  market_symbol : String
  event_description : Value
  analysis_text : Value
  impact_score : Value
  sentiment_summary : Value
  search_sources : Value
  expert_commentary : Value
  created_at : Nat
deriving Repr

/-- The latest `config` row (models.py lines 23-32); `none` fields model
NULL columns. -/
structure ConfigRow where
  llm_api_key : Option String
  llm_model : Option String
  star_filter : Option Nat
deriving Repr, DecidableEq

/-- The analyzer's world: the database tables it touches, the number of
outbound HTTP requests issued so far, and the id/creation counter for
fresh `event_analyses` rows. -/
structure AState where
  config : Option ConfigRow
  events : List EventRow
  analyses : List AnalysisRow
  callCount : Nat
  nextId : Nat

/-! ## Config accessors (llm_analyzer.py lines 48-101) -/

/-- `_get_api_key`: the latest config row's `llm_api_key`, `none` when no
config row exists. -/
def get_api_key (st : AState) : Option String :=
  match st.config with
  | some c => c.llm_api_key
  | none => none

/-- `_get_star_filter`: the latest config row's `star_filter` when present
and truthy (nonzero), else the default 1. -/
def get_star_filter (st : AState) : Nat :=
  match st.config with
  | some c =>
    match c.star_filter with
    | some n => if n ≠ 0 then n else 1
    | none => 1
  | none => 1

/-- `_get_event_importance`: the `importance_map` lookup with default 1 —
Low=1, Medium=2, High=3, anything else (including NULL) 1. -/
def get_event_importance (importance_str : Option String) : Nat :=
  match importance_str with
  | some s =>
    if s = "Low" then 1 else if s = "Medium" then 2 else if s = "High" then 3 else 1
  | none => 1

/-- `if not self.api_key` in `_call_llm_api`: the key must exist and be a
non-empty string. -/
def apiKeyOk (st : AState) : Bool :=
  match get_api_key st with
  | some s => s ≠ ""
  | none => false

/-! ## Analysis store access -/

/-- The `(event_id, market_symbol)` lookup ordered by `created_at`
descending, `.first()`: the matching row with the greatest creation
stamp (llm_analyzer.py lines 109-114). -/
def findExisting (st : AState) (event_id : Nat) (market_symbol : String) : Option AnalysisRow :=
  (st.analyses.filter
      (fun a => a.event_id = event_id ∧ a.market_symbol = market_symbol)).foldl
    (fun acc a =>
      match acc with
      | none => some a
      | some b => if b.created_at < a.created_at then some a else some b)
    none

/-- `_get_event_data`: first `economic_events` row with the given id
(llm_analyzer.py lines 173-201). -/
def get_event_data (st : AState) (event_id : Nat) : Option EventRow :=
  st.events.find? (fun e => e.id == event_id)

/-- The dict returned for a pre-existing analysis (llm_analyzer.py lines
119-127): `is_relevant` is hard-coded `True`, `key_factors` is read back
from the `search_sources` column, and the `or`-defaults replace falsy
stored values. -/
def cachedDict (a : AnalysisRow) : Value :=
  Value.vDict [
    ("is_relevant", Value.vBool true),
    ("event_description", pyOrVal a.event_description (Value.vStr "")),
    ("analysis_text", a.analysis_text),
    ("impact_score", a.impact_score),
    ("sentiment_summary", a.sentiment_summary),
    ("key_factors", pyOrVal a.search_sources (Value.vList [])),
    ("expert_commentary", pyOrVal a.expert_commentary (Value.vStr ""))]

/-! ## Prompt and external call -/

/-- `_create_analysis_prompt` (llm_analyzer.py lines 212-240); the exact
wording is irrelevant to the claims, but the `or`-defaults for unreleased
values are kept. -/
def create_analysis_prompt (event_data : EventRow) (market_symbol : String) : String :=
  "Analyze this economic event for " ++ market_symbol ++ " market impact: Event: "
    ++ event_data.event_name ++ " Date: " ++ event_data.date
    ++ " Time: " ++ (event_data.time.getD "") ++ " Region (given by the currency): "
    ++ (event_data.currency.getD "")
    ++ " Actual: " ++ pyOrStr event_data.actual "Not released yet"
    ++ " Forecast: " ++ pyOrStr event_data.forecast "N/A"
    ++ " Previous: " ++ pyOrStr event_data.previous "N/A"
    ++ " Provide analysis focused on " ++ market_symbol ++ " only."

/-- `_call_llm_api` (llm_analyzer.py lines 242-301): no usable key means
no request at all; otherwise one HTTP request is issued (counted), whose
outcome the oracle gives per call index (`none` = transport failure,
modelling `requests.RequestException`). Rate-limit sleeping does not
affect the functional result and is modelled separately below. -/
def call_llm_api (oracle : Nat → String → Option String) (prompt : String)
    (st : AState) : Option String × AState :=
  if apiKeyOk st then
    (oracle st.callCount prompt, { st with callCount := st.callCount + 1 })
  else
    (none, st)

/-! ## Persisting an analysis -/

/-- The three dict keys `_save_analysis_to_db` indexes directly
(`analysis['analysis_text']` etc., llm_analyzer.py lines 371-380); if any
is missing the constructor raises `KeyError` before `session.add`, the
`except` returns `None`, and no row is written. -/
def requiredKeysOk (analysis : Value) : Bool :=
  hasKey analysis "analysis_text" && hasKey analysis "impact_score" &&
    hasKey analysis "sentiment_summary"

/-- `_save_analysis_to_db` (llm_analyzer.py lines 364-392): appends one
`event_analyses` row built from the parsed dict and returns its id, or
returns `none` writing nothing when a directly-indexed key is missing. -/
def save_analysis_to_db (event_id : Nat) (market_symbol : String) (analysis : Value)
    (st : AState) : Option Nat × AState :=
  if requiredKeysOk analysis then
    let row : AnalysisRow := {
      id := st.nextId
      event_id := event_id
      market_symbol := market_symbol
      event_description := dictGetD analysis "event_description" (Value.vStr "")
      analysis_text := dictGetD analysis "analysis_text" Value.vNone
      impact_score := dictGetD analysis "impact_score" Value.vNone
      sentiment_summary := dictGetD analysis "sentiment_summary" Value.vNone
      search_sources := dictGetD analysis "key_factors" (Value.vList [])
      expert_commentary := dictGetD analysis "expert_commentary" (Value.vStr "")
      created_at := st.nextId }
    (some st.nextId,
      { st with analyses := st.analyses ++ [row], nextId := st.nextId + 1 })
  else
    (none, st)

/-- The id wrapped back into the fresh-path return dict (`None` when the
save failed). -/
def idValue : Option Nat → Value
  | some n => Value.vInt n
  | none => Value.vNone

/-! ## `analyze_economic_event` (llm_analyzer.py lines 103-171) -/

/-- `analyze_economic_event`: memoized lookup, event load, star filter,
external call, the `if not analysis:` truthiness guard (a `None` or
empty-string response is a failure — logged, nothing written), parse,
relevance check, persist. Returns the Python return value (`none` =
Python `None`) and the updated world. -/
def analyze_economic_event (jp : List Char → Option Value)
    (oracle : Nat → String → Option String)
    (event_id : Nat) (market_symbol : String) (st : AState) :
    Option Value × AState :=
  match findExisting st event_id market_symbol with
  | some existing_analysis => (some (cachedDict existing_analysis), st)
  | none =>
    match get_event_data st event_id with
    | none => (none, st)
    | some event_data =>
      let star_filter := get_star_filter st
      let event_importance := get_event_importance event_data.importance
      if event_importance < star_filter then
        (none, st)
      else
        let prompt := create_analysis_prompt event_data market_symbol
        match call_llm_api oracle prompt st with
        | (none, st') => (none, st')
        | (some analysis, st') =>
          if analysis = "" then
            (none, st')
          else
          let structured_analysis := parse_analysis jp analysis
          if !pyTruthy (dictGetD structured_analysis "is_relevant" (Value.vBool true)) then
            (none, st')
          else
            let (analysis_id, st'') :=
              save_analysis_to_db event_id market_symbol structured_analysis st'
            (some (Value.vDict [
                ("analysis_id", idValue analysis_id),
                ("event_id", Value.vInt event_id),
                ("analysis", structured_analysis)]), st'')

/-! ## `analyze_events_for_date` (llm_analyzer.py lines 394-427) -/

/-- One progress notification `(current, total, event_name)` as handed to
`progress_callback`. -/
abbrev Progress := Nat × Nat × String

/-- The iteration body of `analyze_events_for_date`: emit progress for the
1-based index, then analyze, appending a non-`None` result. -/
def batchStep (jp : List Char → Option Value) (oracle : Nat → String → Option String)
    (market_symbol : String) (total : Nat)
    (acc : List Value × List Progress × AState) (p : Nat × EventRow) :
    List Value × List Progress × AState :=
  let (analyses, progress, st) := acc
  let progress' := progress ++ [(p.1, total, p.2.event_name)]
  match analyze_economic_event jp oracle p.2.id market_symbol st with
  | (some analysis, st') => (analyses ++ [analysis], progress', st')
  | (none, st') => (analyses, progress', st')

/-- `analyze_events_for_date`: all events of the date in store order, each
preceded by a progress notification; per-event `None`s are skipped, the
batch never aborts. Returns the collected list, the progress
notifications in publish order, and the final world. -/
def analyze_events_for_date (jp : List Char → Option Value)
    (oracle : Nat → String → Option String)
    (target_date : String) (market_symbol : String) (st : AState) :
    List Value × List Progress × AState :=
  let events := st.events.filter (fun e => e.date == target_date)
  let total_events := events.length
  ((events.enum.map (fun p => (p.1 + 1, p.2))).foldl
      (batchStep jp oracle market_symbol total_events) ([], [], st))

/-! ## `save_events_to_db` (scraper.py lines 215-273) -/

/-- One scraped `event_data` dict as handed to `save_events_to_db`. -/
structure IngestEvent where
  date : String
  market_id : Option Nat
  time : Option String
  currency : Option String
  importance : Option String
  event_name : String
  actual : Option String
  forecast : Option String
  previous : Option String
  source_url : Option String
deriving Repr, DecidableEq

/-- The existence check of scraper.py lines 229-233: same `(date,
event_name, time)`. -/
def eventMatches (r : EventRow) (e : IngestEvent) : Bool :=
  r.date == e.date && r.event_name == e.event_name && r.time == e.time

/-- The update branch (scraper.py lines 236-243): every non-identity
column is overwritten from the scraped dict; `id`, `date`, `event_name`
and `time` are untouched. -/
def updateRow (r : EventRow) (e : IngestEvent) : EventRow :=
  { r with
    market_id := e.market_id
    currency := e.currency
    importance := e.importance
    actual := e.actual
    forecast := e.forecast
    previous := e.previous
    source_url := e.source_url }

/-- The insert branch (scraper.py lines 246-258). -/
def mkRow (id : Nat) (e : IngestEvent) : EventRow :=
  { id := id
    date := e.date
    market_id := e.market_id
    time := e.time
    currency := e.currency
    importance := e.importance
    event_name := e.event_name
    actual := e.actual
    forecast := e.forecast
    previous := e.previous
    source_url := e.source_url }

/-- Processing a single scraped event against the table: the first row
matching the identity is updated in place, otherwise a fresh row is
appended at the end. -/
def upsertOne (e : IngestEvent) : List EventRow → Nat → List EventRow × Nat
  | [], nextId => ([mkRow nextId e], nextId + 1)
  | r :: rs, nextId =>
    if eventMatches r e then (updateRow r e :: rs, nextId)
    else
      let (rs', n') := upsertOne e rs nextId
      (r :: rs', n')

/-- `save_events_to_db`: the loop over the scraped list. (Visibility of
pending in-batch inserts to later lookups is immaterial to the claims
settled here, which concern a single ingested event.) -/
def save_events_to_db (events : List IngestEvent) (rows : List EventRow)
    (nextId : Nat) : List EventRow × Nat :=
  events.foldl (fun acc e => upsertOne e acc.1 acc.2) (rows, nextId)

/-! ## Rate limiter timing (llm_analyzer.py lines 27-46 and 287-292)

Time is modelled by `ℚ`. One protected external call is `(arrive,
duration, success)`: the moment `_enforce_rate_limit` is entered, how
long the HTTP request takes, and whether it returns without raising.
The class-level `_last_api_call_time` is threaded through. -/

/-- `_min_request_interval = 1.0`. -/
def min_interval : ℚ := 1

/-- One gated external call as timed by the process. -/
structure Call where
  arrive : ℚ
  duration : ℚ
  success : Bool
deriving Repr, DecidableEq

/-- `_enforce_rate_limit`: entering at `arrive` with the stored stamp
`last`, the call starts after sleeping `min_interval - (arrive - last)`
when that is positive, i.e. at `last + min_interval`, else immediately. -/
def enforce_rate_limit (last arrive : ℚ) : ℚ :=
  if arrive - last < min_interval then last + min_interval else arrive

/-- One pass through `_call_llm_api`'s timing: the call's start time, and
the stamp afterwards — `time.time()` taken after the response only on
success (line 291 sits after `raise_for_status`; on `RequestException`
the stamp is left untouched). -/
def rlStep (last : ℚ) (c : Call) : ℚ × ℚ :=
  let start := enforce_rate_limit last c.arrive
  (start, if c.success then start + c.duration else last)

/-- The start times of a sequence of gated calls. -/
def rlStarts (last : ℚ) : List Call → List ℚ
  | [] => []
  | c :: cs =>
    let p := rlStep last c
    p.1 :: rlStarts p.2 cs

/-- Single-threaded well-formedness of a call sequence: each call's
duration is nonnegative and each call enters the limiter no earlier than
`lb` — the previous call's completion (the code runs the calls one after
the other on one thread). -/
def wellSeq (last lb : ℚ) : List Call → Bool
  | [] => true
  | c :: cs =>
    let p := rlStep last c
    decide (lb ≤ c.arrive) && decide (0 ≤ c.duration) &&
      wellSeq p.2 (p.1 + c.duration) cs

/-! ## Helper lemmas: the fallback impact scan -/

/-- The value a single line contributes to the impact scan, when it
contributes one: the line mentions "impact", holds a digit, and its
concatenated digits lie in 1..10. -/
def lineScore? (line : List Char) : Option Nat :=
  if listInfixOf "impact".data (lowerChars line) && line.any Char.isDigit then
    match lineDigitsValue line with
    | some s => if 1 ≤ s && s ≤ 10 then some s else none
    | none => none
  else none

lemma impactStep_of_none {line : List Char} (h : lineScore? line = none) (d : Nat) :
    impactStep d line = d := by
  unfold lineScore? at h
  unfold impactStep
  split at h
  · rename_i hc
    rw [if_pos hc]
    rcases hv : lineDigitsValue line with _ | s
    · simp only [hv]
    · simp only [hv] at h ⊢
      split at h
      · exact absurd h (by simp)
      · rename_i hr
        rw [if_neg hr]
  · rename_i hc
    rw [if_neg hc]

lemma impactStep_of_some {line : List Char} {v : Nat} (h : lineScore? line = some v)
    (d : Nat) : impactStep d line = v := by
  unfold lineScore? at h
  unfold impactStep
  split at h
  · rename_i hc
    rw [if_pos hc]
    rcases hv : lineDigitsValue line with _ | s
    · simp only [hv] at h
      exact absurd h (by simp)
    · simp only [hv] at h ⊢
      split at h
      · rename_i hr
        cases h
        rw [if_pos hr]
      · exact absurd h (by simp)
  · exact absurd h (by simp)

/-- The left fold of the impact scan equals the last contributing line's
value, with 5 as the default. -/
lemma foldl_impactStep_eq (l : List (List Char)) (d : Nat) :
    l.foldl impactStep d = ((l.filterMap lineScore?).getLast?).getD d := by
  induction l generalizing d with
  | nil => rfl
  | cons a l ih =>
    rcases h : lineScore? a with _ | v
    · rw [List.foldl_cons, impactStep_of_none h, ih]
      simp only [List.filterMap_cons, h]
    · rw [List.foldl_cons, impactStep_of_some h, ih]
      simp only [List.filterMap_cons, h]
      rcases ht : l.filterMap lineScore? with _ | ⟨b, t⟩
      · simp [ht]
      · rw [List.getLast?_cons_cons]
        have hs : (b :: t).getLast?.isSome := by simp
        obtain ⟨x, hx⟩ := Option.isSome_iff_exists.mp hs
        rw [hx]
        rfl

/-- Whatever a line contributes lies in 1..10 by the scan's guard. -/
lemma lineScore?_range {line : List Char} {v : Nat} (h : lineScore? line = some v) :
    1 ≤ v ∧ v ≤ 10 := by
  unfold lineScore? at h
  split at h
  · rcases hv : lineDigitsValue line with _ | s
    · simp only [hv] at h
      exact absurd h (by simp)
    · simp only [hv] at h
      split at h
      · rename_i hr
        simp only [Bool.and_eq_true, decide_eq_true_eq] at hr
        cases h
        exact hr
      · exact absurd h (by simp)
  · exact absurd h (by simp)

/-- One scan step keeps the score in 1..10. -/
lemma impactStep_range (d : Nat) (line : List Char) (hd : 1 ≤ d ∧ d ≤ 10) :
    1 ≤ impactStep d line ∧ impactStep d line ≤ 10 := by
  rcases h : lineScore? line with _ | v
  · rw [impactStep_of_none h]; exact hd
  · rw [impactStep_of_some h]; exact lineScore?_range h

/-- The fold stays in 1..10 from the in-range default. -/
lemma foldl_impactStep_range (l : List (List Char)) (d : Nat)
    (hd : 1 ≤ d ∧ d ≤ 10) :
    1 ≤ l.foldl impactStep d ∧ l.foldl impactStep d ≤ 10 := by
  induction l generalizing d with
  | nil => exact hd
  | cons a l ih =>
    rw [List.foldl_cons]
    exact ih _ (impactStep_range d a hd)

/-! ## Shape checkers for parsed analyses -/

/-- The parsed impact score is an integer in 1..10. -/
def impactOkB (d : Value) : Bool :=
  match getIntField d "impact_score" with
  | some n => 1 ≤ n && n ≤ 10
  | none => false

/-- The parsed sentiment is one of the three admissible strings. -/
def sentimentOkB (d : Value) : Bool :=
  match getStrField d "sentiment_summary" with
  | some s => s = "bullish" || s = "bearish" || s = "neutral"
  | none => false

/-- All six analysis keys are present, the impact score is in range and
the sentiment admissible. -/
def analysisShapeOk (d : Value) : Bool :=
  hasKey d "event_description" && hasKey d "analysis_text" &&
    hasKey d "key_factors" && hasKey d "expert_commentary" &&
    impactOkB d && sentimentOkB d

/-- The fallback sentiment is always one of the three admissible
strings. -/
lemma fallbackSentiment_mem (s : String) :
    fallbackSentiment s = "bullish" ∨ fallbackSentiment s = "bearish" ∨
      fallbackSentiment s = "neutral" := by
  by_cases h1 : listInfixOf "bullish".data (lowerChars s.data) = true
  · exact Or.inl (if_pos h1)
  · by_cases h2 : listInfixOf "bearish".data (lowerChars s.data) = true
    · exact Or.inr (Or.inl ((if_neg h1).trans (if_pos h2)))
    · exact Or.inr (Or.inr ((if_neg h1).trans (if_neg h2)))

lemma impactOkB_of_int {d : Value} {n : Int}
    (h : getIntField d "impact_score" = some n) (h1 : 1 ≤ n) (h2 : n ≤ 10) :
    impactOkB d = true := by
  unfold impactOkB
  rw [h]
  simp only [Bool.and_eq_true, decide_eq_true_eq]
  exact ⟨h1, h2⟩

lemma sentimentOkB_of_str {d : Value} {t : String}
    (h : getStrField d "sentiment_summary" = some t)
    (ht : t = "bullish" ∨ t = "bearish" ∨ t = "neutral") :
    sentimentOkB d = true := by
  unfold sentimentOkB
  rw [h]
  rcases ht with rfl | rfl | rfl <;> rfl

/-- C10: `_parse_analysis` is total (modelled by `parse_analysis` being a
function into dicts), and on every non-strict-JSON path — the cleaned
text does not start with an opening brace, or `json.loads` raises — the
returned dict carries all six keys `event_description`, `analysis_text`,
`impact_score`, `sentiment_summary`, `key_factors`,
`expert_commentary`, with the sentiment one of bullish/bearish/neutral
and the impact score an integer in 1..10. -/
theorem parse_analysis_nonjson_shape (jp : List Char → Option Value) (s : String)
    (h : (cleanedText s).head? ≠ some '\x7b' ∨ jp (cleanedText s) = none) :
    analysisShapeOk (parse_analysis jp s) = true := by
  simp only [parse_analysis]
  by_cases hb : (cleanedText s).head? = some '\x7b'
  · rw [if_pos hb]
    rcases h with h | h
    · exact absurd hb h
    · rw [h]
      rfl
  · rw [if_neg hb]
    have hi : 1 ≤ fallbackImpact s ∧ fallbackImpact s ≤ 10 :=
      foldl_impactStep_range (splitLines s.data) 5 (by decide)
    have h1 : getIntField (fallbackDict s) "impact_score" =
        some ((fallbackImpact s : Nat) : Int) := rfl
    have h2 : getStrField (fallbackDict s) "sentiment_summary" =
        some (fallbackSentiment s) := rfl
    show (impactOkB (fallbackDict s) && sentimentOkB (fallbackDict s)) = true
    rw [Bool.and_eq_true]
    refine ⟨impactOkB_of_int h1 ?_ ?_, sentimentOkB_of_str h2 (fallbackSentiment_mem s)⟩
    · exact_mod_cast hi.1
    · exact_mod_cast hi.2

/-- Witness for C10 at a concrete non-JSON response. -/
theorem parse_analysis_nonjson_shape_witness :
    analysisShapeOk (parse_analysis (fun _ => none) "no structured data") = true :=
  parse_analysis_nonjson_shape (fun _ => none) "no structured data" (Or.inl (by decide))

/-! ## Claim C5 -/

/-- C5 counterexample: the response text "\x7bimpact 7 bearish" is not
JSON (so `json.loads` raises — modelled by the parse oracle returning
`none` on it) and contains both "impact 7" and "bearish"; yet because it
starts with an opening brace, `_parse_analysis` lands in the outer
`except` branch and returns the fixed defaults impact 5 / neutral, not
7 / bearish as the claim demands of every non-JSON response. -/
theorem parse_analysis_brace_prefix_counterexample :
    strContains "\x7bimpact 7 bearish" "impact 7" = true ∧
    strContains "\x7bimpact 7 bearish" "bearish" = true ∧
    parse_analysis (fun _ => none) "\x7bimpact 7 bearish" =
      parseErrorDict "\x7bimpact 7 bearish" ∧
    getIntField (parse_analysis (fun _ => none) "\x7bimpact 7 bearish")
      "impact_score" = some 5 ∧
    getStrField (parse_analysis (fun _ => none) "\x7bimpact 7 bearish")
      "sentiment_summary" = some "neutral" :=
  ⟨by decide, by decide, rfl, by decide, by decide⟩

/-- C5 (amended): for every response text whose cleaned form does not
start with an opening brace, parsing never fails and takes the heuristic
fallback: the key factors are empty, the impact score is the last line's
contribution — a line containing "impact" and digits whose concatenated
digits form a number in 1..10 — defaulting to 5, and the sentiment is
"bullish" when the lowercased text contains "bullish", else "bearish"
when it contains "bearish", else "neutral". (A brace-prefixed malformed
response instead yields the fixed defaults 5 / neutral / no factors.) -/
theorem parse_analysis_fallback_non_brace (jp : List Char → Option Value) (s : String)
    (h : (cleanedText s).head? ≠ some '\x7b') :
    parse_analysis jp s = fallbackDict s ∧
    getIntField (parse_analysis jp s) "impact_score" =
      some (((((splitLines s.data).filterMap lineScore?).getLast?.getD 5 : Nat)) : Int) ∧
    dictLookup (parse_analysis jp s) "key_factors" = some (Value.vList []) ∧
    (listInfixOf "bullish".data (lowerChars s.data) = true →
      getStrField (parse_analysis jp s) "sentiment_summary" = some "bullish") ∧
    (listInfixOf "bullish".data (lowerChars s.data) = false →
      listInfixOf "bearish".data (lowerChars s.data) = true →
      getStrField (parse_analysis jp s) "sentiment_summary" = some "bearish") ∧
    (listInfixOf "bullish".data (lowerChars s.data) = false →
      listInfixOf "bearish".data (lowerChars s.data) = false →
      getStrField (parse_analysis jp s) "sentiment_summary" = some "neutral") := by
  have hp : parse_analysis jp s = fallbackDict s := by
    simp only [parse_analysis]
    rw [if_neg h]
  have himp : getIntField (fallbackDict s) "impact_score" =
      some ((fallbackImpact s : Nat) : Int) := rfl
  have hsen : getStrField (fallbackDict s) "sentiment_summary" =
      some (fallbackSentiment s) := rfl
  refine ⟨hp, ?_, ?_, ?_, ?_, ?_⟩
  · rw [hp, himp]
    have : fallbackImpact s =
        ((splitLines s.data).filterMap lineScore?).getLast?.getD 5 :=
      foldl_impactStep_eq (splitLines s.data) 5
    rw [this]
  · rw [hp]
    rfl
  · intro h1
    rw [hp, hsen, show fallbackSentiment s = "bullish" from if_pos h1]
  · intro h1 h2
    rw [hp, hsen, show fallbackSentiment s = "bearish" from
      (if_neg (by simp [h1])).trans (if_pos h2)]
  · intro h1 h2
    rw [hp, hsen, show fallbackSentiment s = "neutral" from
      (if_neg (by simp [h1])).trans (if_neg (by simp [h2]))]

/-- Witness for C5 (amended) at the claim's own example: a non-JSON
response containing "impact 7" and "bearish" parses to impact 7 and
sentiment bearish. -/
theorem parse_analysis_fallback_non_brace_witness :
    getIntField (parse_analysis (fun _ => none) "impact 7\nbearish")
        "impact_score" = some 7 ∧
    getStrField (parse_analysis (fun _ => none) "impact 7\nbearish")
        "sentiment_summary" = some "bearish" := by
  have h := parse_analysis_fallback_non_brace (fun _ => none) "impact 7\nbearish"
    (by decide)
  refine ⟨?_, ?_⟩
  · rw [h.2.1]
    decide
  · rw [h.2.2.2.2.1 (by decide) (by decide)]

/-! ## Claim C7 -/

/-- A stored event row used in concrete scenarios. -/
def usdRow : EventRow :=
  { id := 3, date := "2024-01-10", market_id := some 1, time := some "08:30",
    currency := some "USD", importance := some "High", event_name := "CPI Release",
    actual := none, forecast := some "3.1%", previous := some "3.2%",
    source_url := some "a" }

/-- A re-ingested event with the same identity `(date, event_name, time)`
as `usdRow` but different non-identity fields. -/
def eurIngest : IngestEvent :=
  { date := "2024-01-10", market_id := some 2, time := some "08:30",
    currency := some "EUR", importance := some "Low", event_name := "CPI Release",
    actual := some "3.0%", forecast := some "3.1%", previous := some "3.2%",
    source_url := some "b" }

/-- C7 counterexample: re-ingesting an event with matching identity
refreshes `currency` and `importance` (and `market_id`, `source_url`) as
well, not only actual/forecast/previous as the claim states. -/
theorem save_events_refreshes_more_than_avp :
    eventMatches usdRow eurIngest = true ∧
    (save_events_to_db [eurIngest] [usdRow] 7).1.map (fun r => r.currency) =
      [some "EUR"] ∧
    usdRow.currency = some "USD" ∧
    (save_events_to_db [eurIngest] [usdRow] 7).1.map (fun r => r.importance) =
      [some "Low"] ∧
    usdRow.importance = some "High" ∧
    (save_events_to_db [eurIngest] [usdRow] 7).1.length = 1 := by
  decide

/-- C7 (amended): for every ingested event matching an existing row's
identity `(date, event_name, time)`, `save_events_to_db` updates the
first matching row in place — no second row is inserted (the id counter
and list length are unchanged) — refreshing `market_id`, `currency`,
`importance`, `actual`, `forecast`, `previous` and `source_url`, while
the row's `id`, `date`, `event_name` and `time` stay unchanged and all
other rows are untouched. -/
theorem save_events_upsert_in_place (rows : List EventRow) (e : IngestEvent) (n : Nat)
    (hmatch : rows.any (fun r => eventMatches r e) = true) :
    ∃ i, ∃ h : i < rows.length,
      eventMatches (rows.get ⟨i, h⟩) e = true ∧
      save_events_to_db [e] rows n =
        (rows.take i ++ updateRow (rows.get ⟨i, h⟩) e :: rows.drop (i + 1), n) ∧
      (updateRow (rows.get ⟨i, h⟩) e).id = (rows.get ⟨i, h⟩).id ∧
      (updateRow (rows.get ⟨i, h⟩) e).date = (rows.get ⟨i, h⟩).date ∧
      (updateRow (rows.get ⟨i, h⟩) e).event_name = (rows.get ⟨i, h⟩).event_name ∧
      (updateRow (rows.get ⟨i, h⟩) e).time = (rows.get ⟨i, h⟩).time ∧
      (updateRow (rows.get ⟨i, h⟩) e).currency = e.currency ∧
      (updateRow (rows.get ⟨i, h⟩) e).actual = e.actual ∧
      (rows.take i ++ updateRow (rows.get ⟨i, h⟩) e :: rows.drop (i + 1)).length =
        rows.length := by
  have hsave : save_events_to_db [e] rows n = upsertOne e rows n := rfl
  suffices hup : ∃ i, ∃ h : i < rows.length,
      eventMatches (rows.get ⟨i, h⟩) e = true ∧
      upsertOne e rows n =
        (rows.take i ++ updateRow (rows.get ⟨i, h⟩) e :: rows.drop (i + 1), n) by
    obtain ⟨i, h, hme, heq⟩ := hup
    refine ⟨i, h, hme, hsave.trans heq, rfl, rfl, rfl, rfl, rfl, rfl, ?_⟩
    have h1 : (rows.take i).length = i := List.length_take_of_le (le_of_lt h)
    simp [h1, List.length_drop]
    omega
  clear hsave
  induction rows generalizing n with
  | nil => simp at hmatch
  | cons r rs ih =>
    by_cases hm : eventMatches r e = true
    · exact ⟨0, Nat.succ_pos _, hm, by simp [upsertOne, hm]⟩
    · have hm' : eventMatches r e = false := by
        simpa using hm
      have hmatch' : rs.any (fun r => eventMatches r e) = true := by
        rw [List.any_cons, hm', Bool.false_or] at hmatch
        exact hmatch
      obtain ⟨i, h, hme, heq⟩ := ih n hmatch'
      refine ⟨i + 1, Nat.succ_lt_succ h, hme, ?_⟩
      simp [upsertOne, hm', heq]

/-- Witness for C7 (amended) at a concrete matching re-ingestion. -/
theorem save_events_upsert_in_place_witness :
    ∃ i, ∃ h : i < [usdRow].length,
      eventMatches ([usdRow].get ⟨i, h⟩) eurIngest = true ∧
      save_events_to_db [eurIngest] [usdRow] 7 =
        ([usdRow].take i ++ updateRow ([usdRow].get ⟨i, h⟩) eurIngest ::
          [usdRow].drop (i + 1), 7) ∧
      (updateRow ([usdRow].get ⟨i, h⟩) eurIngest).id = ([usdRow].get ⟨i, h⟩).id ∧
      (updateRow ([usdRow].get ⟨i, h⟩) eurIngest).date = ([usdRow].get ⟨i, h⟩).date ∧
      (updateRow ([usdRow].get ⟨i, h⟩) eurIngest).event_name =
        ([usdRow].get ⟨i, h⟩).event_name ∧
      (updateRow ([usdRow].get ⟨i, h⟩) eurIngest).time = ([usdRow].get ⟨i, h⟩).time ∧
      (updateRow ([usdRow].get ⟨i, h⟩) eurIngest).currency = eurIngest.currency ∧
      (updateRow ([usdRow].get ⟨i, h⟩) eurIngest).actual = eurIngest.actual ∧
      ([usdRow].take i ++ updateRow ([usdRow].get ⟨i, h⟩) eurIngest ::
        [usdRow].drop (i + 1)).length = [usdRow].length :=
  save_events_upsert_in_place [usdRow] eurIngest 7 (by decide)

/-! ## Claim C2 -/

lemma rlStep_fst (last : ℚ) (c : Call) :
    (rlStep last c).1 = enforce_rate_limit last c.arrive := rfl

lemma rlStep_snd (last : ℚ) (c : Call) :
    (rlStep last c).2 =
      if c.success = true then enforce_rate_limit last c.arrive + c.duration
      else last := rfl

lemma rlStarts_cons (last : ℚ) (c : Call) (cs : List Call) :
    rlStarts last (c :: cs) = (rlStep last c).1 :: rlStarts (rlStep last c).2 cs := rfl

lemma wellSeq_cons (last lb : ℚ) (c : Call) (cs : List Call) :
    wellSeq last lb (c :: cs) =
      (decide (lb ≤ c.arrive) && decide (0 ≤ c.duration) &&
        wellSeq (rlStep last c).2 ((rlStep last c).1 + c.duration) cs) := rfl

/-- C2 (amended): in a single-threaded sequence of gated calls, whenever
a call SUCCEEDS (only then is `_last_api_call_time` updated, and to the
call's completion time), the next call starts at least `min_interval`
after it. After a FAILED call the stamp is left untouched, so the claim
as stated — the gap is at least `min_interval` between any two
consecutive call starts, with the stamp updated on success or failure —
does not hold (see the counterexample). -/
theorem rate_gap_after_success :
    ∀ (cs : List Call) (last lb : ℚ) (i : Nat) (c : Call) (s1 s2 : ℚ),
      wellSeq last lb cs = true →
      cs.get? i = some c → c.success = true →
      (rlStarts last cs).get? i = some s1 →
      (rlStarts last cs).get? (i + 1) = some s2 →
      s1 + min_interval ≤ s2 := by
  intro cs
  induction cs with
  | nil =>
    intro last lb i c s1 s2 _ hc hs h1 h2
    simp at hc
  | cons c0 cs ih =>
    intro last lb i c s1 s2 hw hc hs h1 h2
    rw [wellSeq_cons] at hw
    simp only [Bool.and_eq_true, decide_eq_true_eq] at hw
    obtain ⟨⟨hlb, hd0⟩, hw'⟩ := hw
    rw [rlStarts_cons] at h1 h2
    cases i with
    | zero =>
      simp only [List.get?_cons_zero, Option.some_inj] at hc h1
      subst hc
      subst h1
      simp only [List.get?_cons_succ] at h2
      cases cs with
      | nil => simp [rlStarts] at h2
      | cons c1 cs' =>
        rw [rlStarts_cons] at h2
        simp only [List.get?_cons_zero, Option.some_inj] at h2
        subst h2
        have hl' : (rlStep last c0).2 = (rlStep last c0).1 + c0.duration := by
          rw [rlStep_snd, if_pos hs, rlStep_fst]
        rw [rlStep_fst (rlStep last c0).2 c1]
        unfold enforce_rate_limit
        rw [hl']
        by_cases he : c1.arrive - ((rlStep last c0).1 + c0.duration) < min_interval
        · rw [if_pos he]
          linarith
        · rw [if_neg he]
          push_neg at he
          linarith
    | succ i =>
      simp only [List.get?_cons_succ] at hc h1 h2
      exact ih (rlStep last c0).2 ((rlStep last c0).1 + c0.duration) i c s1 s2
        hw' hc hs h1 h2

/-- Witness for C2 (amended): two well-spaced successful calls; the
second starts at least `min_interval` after the first. -/
theorem rate_gap_after_success_witness : (2 : ℚ) + min_interval ≤ 4 := by
  have hstarts : rlStarts 0 [⟨2, 1, true⟩, ⟨4, 0, true⟩] = [2, 4] := by
    norm_num [rlStarts, rlStep, enforce_rate_limit, min_interval]
  exact rate_gap_after_success [⟨2, 1, true⟩, ⟨4, 0, true⟩] 0 0 0 ⟨2, 1, true⟩ 2 4
    (by norm_num [wellSeq, rlStep, enforce_rate_limit, min_interval]) rfl rfl
    (by rw [hstarts]; rfl) (by rw [hstarts]; rfl)

/-- The three timed calls of the C2 counterexample: a successful call
entering at 2 taking 1 time unit, a failed call entering at 4, and a
third call entering at 4 (the moment the failed call returns). -/
def rateCalls : List Call := [⟨2, 1, true⟩, ⟨4, 0, false⟩, ⟨4, 1, true⟩]

/-- C2 counterexample: the timestamp is updated only after a SUCCESSFUL
call (llm_analyzer.py line 291 sits after `raise_for_status`), so after
the failed second call the stamp still holds the first call's completion
time 3, and the third call starts immediately at 4 — a gap of 0 < 1
between the starts of the consecutive calls 2 and 3, refuting the claim
for sequences containing a failure. -/
theorem rate_gap_counterexample :
    wellSeq 0 0 rateCalls = true ∧
    rlStarts 0 rateCalls = [2, 4, 4] ∧
    rateCalls.get? 1 = some ⟨4, 0, false⟩ ∧
    ¬((4 : ℚ) + min_interval ≤ 4) := by
  refine ⟨?_, ?_, rfl, ?_⟩
  · norm_num [wellSeq, rlStep, enforce_rate_limit, min_interval, rateCalls]
  · norm_num [rlStarts, rlStep, enforce_rate_limit, min_interval, rateCalls]
  · norm_num [min_interval]

/-! ## Analyzer branch lemmas -/

lemma save_callCount (e : Nat) (m : String) (v : Value) (st : AState) :
    (save_analysis_to_db e m v st).2.callCount = st.callCount := by
  unfold save_analysis_to_db
  split <;> rfl

lemma save_config (e : Nat) (m : String) (v : Value) (st : AState) :
    (save_analysis_to_db e m v st).2.config = st.config := by
  unfold save_analysis_to_db
  split <;> rfl

lemma save_events (e : Nat) (m : String) (v : Value) (st : AState) :
    (save_analysis_to_db e m v st).2.events = st.events := by
  unfold save_analysis_to_db
  split <;> rfl

/-- Appending a row for another `(event, market)` pair does not change
what a lookup finds. -/
lemma findExisting_irrelevant_append (st : AState) (row : AnalysisRow) (n : Nat)
    (e' : Nat) (m' : String)
    (hrow : ¬ (row.event_id = e' ∧ row.market_symbol = m')) :
    findExisting { st with analyses := st.analyses ++ [row], nextId := n } e' m' =
      findExisting st e' m' := by
  unfold findExisting
  simp [List.filter_append, List.filter_cons, hrow]

lemma findExisting_save_ne {e' e : Nat} (hne : e' ≠ e) (m m' : String)
    (v : Value) (st : AState) :
    findExisting (save_analysis_to_db e m v st).2 e' m' = findExisting st e' m' := by
  unfold save_analysis_to_db
  split
  · exact findExisting_irrelevant_append st _ _ e' m' (fun hh => (Ne.symm hne) hh.1)
  · rfl

/-- The memoized branch of `analyze_economic_event`: a stored analysis is
returned as the cached dict, with no state change at all. -/
lemma analyze_cached {jp : List Char → Option Value}
    {oracle : Nat → String → Option String} {e : Nat} {m : String}
    {st : AState} {a : AnalysisRow} (h : findExisting st e m = some a) :
    analyze_economic_event jp oracle e m st = (some (cachedDict a), st) := by
  unfold analyze_economic_event
  rw [h]

/-- The below-threshold branch: no external call, no row, `None`. -/
lemma analyze_skip {jp : List Char → Option Value}
    {oracle : Nat → String → Option String} {e : Nat} {m : String}
    {st : AState} {ev : EventRow}
    (hnone : findExisting st e m = none) (hev : get_event_data st e = some ev)
    (hfilt : get_event_importance ev.importance < get_star_filter st) :
    analyze_economic_event jp oracle e m st = (none, st) := by
  unfold analyze_economic_event
  simp only [hnone, hev]
  rw [if_pos hfilt]

/-- Passing the filter with a usable key issues exactly one external
call, whatever the oracle answers and whatever the parse yields. -/
lemma analyze_one_call {jp : List Char → Option Value}
    {oracle : Nat → String → Option String} {e : Nat} {m : String}
    {st : AState} {ev : EventRow}
    (hnone : findExisting st e m = none) (hev : get_event_data st e = some ev)
    (hfilt : ¬ get_event_importance ev.importance < get_star_filter st)
    (hkey : apiKeyOk st = true) :
    (analyze_economic_event jp oracle e m st).2.callCount = st.callCount + 1 := by
  unfold analyze_economic_event
  simp only [hnone, hev]
  rw [if_neg hfilt]
  unfold call_llm_api
  rw [if_pos hkey]
  rcases hor : oracle st.callCount (create_analysis_prompt ev m) with _ | r
  · simp only [hor]
  · simp only [hor]
    by_cases hemp : r = ""
    · rw [if_pos hemp]
    · rw [if_neg hemp]
      by_cases hrel :
        pyTruthy (dictGetD (parse_analysis jp r) "is_relevant" (Value.vBool true)) = true
      · simp only [hrel, Bool.not_true]
        rw [if_neg Bool.false_ne_true, save_callCount]
      · have hrel' :
            pyTruthy (dictGetD (parse_analysis jp r) "is_relevant" (Value.vBool true)) =
              false := by
          simpa using hrel
        simp only [hrel', Bool.not_false]
        simp only [if_true]

/-! ## Concrete fixtures for the analyzer claims -/

/-- A config row with a usable credential and the permissive filter 1. -/
def keyCfg : ConfigRow :=
  { llm_api_key := some "sk-test", llm_model := some "gpt-4o-mini",
    star_filter := some 1 }

/-- A config row with a usable credential and the strict filter 3. -/
def strictCfg : ConfigRow :=
  { llm_api_key := some "sk-test", llm_model := some "gpt-4o-mini",
    star_filter := some 3 }

/-- A low-importance event row. -/
def lowRow : EventRow :=
  { id := 2, date := "2024-01-10", market_id := some 1, time := some "10:00",
    currency := some "EUR", importance := some "Low", event_name := "Minor Survey",
    actual := none, forecast := none, previous := none, source_url := none }

/-- A stored analysis row for `(event 2, market BTC)`. -/
def storedAnalysis : AnalysisRow :=
  { id := 4, event_id := 2, market_symbol := "BTC",
    event_description := Value.vStr "desc", analysis_text := Value.vStr "text",
    impact_score := Value.vInt 6, sentiment_summary := Value.vStr "bullish",
    search_sources := Value.vList [], expert_commentary := Value.vStr "",
    created_at := 4 }

/-- An oracle whose answers are non-JSON with "impact 7" and "bearish". -/
def oracleBearish : Nat → String → Option String :=
  fun _ _ => some "impact 7\nbearish"

/-- The strict-JSON oracle for texts `json.loads` rejects. -/
def jpNone : List Char → Option Value := fun _ => none

/-- An empty-store world holding only the High-importance `usdRow`. -/
def memoSt : AState :=
  { config := some keyCfg, events := [usdRow], analyses := [], callCount := 0,
    nextId := 10 }

/-- A world in which `(event 2, BTC)` already has a stored analysis. -/
def cachedSt : AState :=
  { config := some keyCfg, events := [lowRow], analyses := [storedAnalysis],
    callCount := 5, nextId := 11 }

/-! ## Claim C1 -/

/-- C1 counterexample: with an empty store, a first
`analyze_economic_event` call stores a row and returns the dict
`(analysis_id, event_id, analysis)`; the second call touches nothing —
no external call, no new row — but returns the flat cached dict, which
has no `analysis_id` key, so it is NOT the first call's result. -/
theorem analyze_second_call_differs :
    (analyze_economic_event jpNone oracleBearish 3 "BTC"
        (analyze_economic_event jpNone oracleBearish 3 "BTC" memoSt).2).2 =
      (analyze_economic_event jpNone oracleBearish 3 "BTC" memoSt).2 ∧
    (analyze_economic_event jpNone oracleBearish 3 "BTC" memoSt).2.callCount = 1 ∧
    (analyze_economic_event jpNone oracleBearish 3 "BTC" memoSt).2.analyses.length = 1 ∧
    Option.map (fun v => hasKey v "analysis_id")
      (analyze_economic_event jpNone oracleBearish 3 "BTC" memoSt).1 = some true ∧
    Option.map (fun v => hasKey v "analysis_id")
      (analyze_economic_event jpNone oracleBearish 3 "BTC"
        (analyze_economic_event jpNone oracleBearish 3 "BTC" memoSt).2).1 = some false ∧
    (analyze_economic_event jpNone oracleBearish 3 "BTC"
        (analyze_economic_event jpNone oracleBearish 3 "BTC" memoSt).2).1 ≠
      (analyze_economic_event jpNone oracleBearish 3 "BTC" memoSt).1 := by
  refine ⟨rfl, rfl, rfl, rfl, rfl, fun heq => ?_⟩
  have h1 : Option.map (fun v => hasKey v "analysis_id")
      (analyze_economic_event jpNone oracleBearish 3 "BTC" memoSt).1 = some true := rfl
  have h2 : Option.map (fun v => hasKey v "analysis_id")
      (analyze_economic_event jpNone oracleBearish 3 "BTC"
        (analyze_economic_event jpNone oracleBearish 3 "BTC" memoSt).2).1 =
      some false := rfl
  rw [heq, h1] at h2
  exact absurd (Option.some_inj.mp h2) (by simp)

/-- C1 (amended): when an Analysis row for `(event, market)` already
exists, a further `analyze_economic_event` call issues no external call
and creates no second row — the state is unchanged — but it returns the
flat cached dict rebuilt from the stored row (hard-coded
`is_relevant = True`), not the first call's `(analysis_id, event_id,
analysis)` wrapper. -/
theorem analyze_memoized_no_second_effect (jp : List Char → Option Value)
    (oracle : Nat → String → Option String) (e : Nat) (m : String)
    (st : AState) (a : AnalysisRow) (h : findExisting st e m = some a) :
    (analyze_economic_event jp oracle e m st).1 = some (cachedDict a) ∧
    (analyze_economic_event jp oracle e m st).2 = st := by
  rw [analyze_cached h]
  exact ⟨rfl, rfl⟩

/-- Witness for C1 (amended) at a concrete stored analysis. -/
theorem analyze_memoized_no_second_effect_witness :
    (analyze_economic_event jpNone oracleBearish 2 "BTC" cachedSt).1 =
      some (cachedDict storedAnalysis) ∧
    (analyze_economic_event jpNone oracleBearish 2 "BTC" cachedSt).2 = cachedSt :=
  analyze_memoized_no_second_effect jpNone oracleBearish 2 "BTC" cachedSt
    storedAnalysis rfl

/-! ## Claim C8 -/

/-- C8: for a pair whose analysis already exists, the returned dict has
`is_relevant` hard-coded `True` and lacks the `analysis_id` and
`event_id` keys of the fresh-analysis return, so the cached result is
never structurally equal to a fresh-path return value. -/
theorem cached_return_shape (jp : List Char → Option Value)
    (oracle : Nat → String → Option String) (e : Nat) (m : String)
    (st : AState) (a : AnalysisRow) (h : findExisting st e m = some a) :
    (analyze_economic_event jp oracle e m st).1 = some (cachedDict a) ∧
    dictLookup (cachedDict a) "is_relevant" = some (Value.vBool true) ∧
    hasKey (cachedDict a) "analysis_id" = false ∧
    hasKey (cachedDict a) "event_id" = false ∧
    ∀ (aid : Option Nat) (structured : Value),
      cachedDict a ≠ Value.vDict [("analysis_id", idValue aid),
        ("event_id", Value.vInt e), ("analysis", structured)] := by
  refine ⟨by rw [analyze_cached h], rfl, rfl, rfl, ?_⟩
  intro aid structured heq
  have h1 : hasKey (cachedDict a) "analysis_id" = false := rfl
  have h2 : hasKey (Value.vDict [("analysis_id", idValue aid),
      ("event_id", Value.vInt e), ("analysis", structured)]) "analysis_id" = true := rfl
  rw [heq, h2] at h1
  exact absurd h1 (by simp)

/-- Witness for C8 at a concrete stored analysis. -/
theorem cached_return_shape_witness :
    (analyze_economic_event jpNone oracleBearish 2 "BTC" cachedSt).1 =
      some (cachedDict storedAnalysis) ∧
    dictLookup (cachedDict storedAnalysis) "is_relevant" =
      some (Value.vBool true) ∧
    hasKey (cachedDict storedAnalysis) "analysis_id" = false ∧
    hasKey (cachedDict storedAnalysis) "event_id" = false ∧
    ∀ (aid : Option Nat) (structured : Value),
      cachedDict storedAnalysis ≠ Value.vDict [("analysis_id", idValue aid),
        ("event_id", Value.vInt 2), ("analysis", structured)] :=
  cached_return_shape jpNone oracleBearish 2 "BTC" cachedSt storedAnalysis rfl

/-! ## Claim C3 -/

/-- A strict-filter world with a stored analysis for the Low event 2. -/
def lowCachedSt : AState :=
  { config := some strictCfg, events := [lowRow], analyses := [storedAnalysis],
    callCount := 0, nextId := 20 }

/-- A strict-filter world with only the Low event 2 and an empty store. -/
def lowSt : AState :=
  { config := some strictCfg, events := [lowRow], analyses := [],
    callCount := 0, nextId := 20 }

/-- A strict-filter world with only the High event 3 and an empty store. -/
def highSt : AState :=
  { config := some strictCfg, events := [usdRow], analyses := [],
    callCount := 0, nextId := 20 }

/-- C3 counterexample: the memoized lookup precedes the star filter
(llm_analyzer.py lines 108-141), so an event of importance Low under
`star_filter = 3` whose `(event, market)` pair already has a stored
analysis returns that analysis — not null as the claim demands for every
below-threshold event (the "no external call, no row" part does hold). -/
theorem low_importance_cached_not_null :
    get_event_importance lowRow.importance = 1 ∧
    get_star_filter lowCachedSt = 3 ∧
    (analyze_economic_event jpNone oracleBearish 2 "BTC" lowCachedSt).1.isSome =
      true ∧
    (analyze_economic_event jpNone oracleBearish 2 "BTC" lowCachedSt).2.callCount =
      0 :=
  ⟨rfl, rfl, rfl, rfl⟩

/-- C3 (amended): for every event with NO stored analysis for the
requested `(event, market)` pair: if its mapped importance is strictly
below `star_filter`, `analyze_economic_event` returns `None` with no
external call and no row created (the state is unchanged); if it passes
the filter and a usable credential is configured, exactly one external
call is issued. -/
theorem analyze_threshold_filter (jp : List Char → Option Value)
    (oracle : Nat → String → Option String) (e : Nat) (m : String)
    (st : AState) (ev : EventRow)
    (hnone : findExisting st e m = none) (hev : get_event_data st e = some ev) :
    (get_event_importance ev.importance < get_star_filter st →
      analyze_economic_event jp oracle e m st = (none, st)) ∧
    (¬ get_event_importance ev.importance < get_star_filter st →
      apiKeyOk st = true →
      (analyze_economic_event jp oracle e m st).2.callCount = st.callCount + 1) :=
  ⟨fun hlt => analyze_skip hnone hev hlt,
   fun hge hkey => analyze_one_call hnone hev hge hkey⟩

/-- Witness for C3: under `star_filter = 3` the Low event is skipped
with the world unchanged, and the High event issues exactly one external
call. -/
theorem analyze_threshold_filter_witness :
    analyze_economic_event jpNone oracleBearish 2 "BTC" lowSt = (none, lowSt) ∧
    (analyze_economic_event jpNone oracleBearish 3 "BTC" highSt).2.callCount = 1 :=
  ⟨(analyze_threshold_filter jpNone oracleBearish 2 "BTC" lowSt lowRow rfl rfl).1
      (by decide),
   (analyze_threshold_filter jpNone oracleBearish 3 "BTC" highSt usdRow rfl rfl).2
      (by decide) (by decide)⟩

/-! ## Claim C9 -/

/-- An event row with an unrecognized importance string. -/
def oddRow : EventRow :=
  { id := 5, date := "2024-01-10", market_id := some 1, time := some "11:00",
    currency := some "USD", importance := some "Critical",
    event_name := "Odd Event", actual := none, forecast := none,
    previous := none, source_url := none }

/-- A strict-filter world holding only the unrecognized-importance event. -/
def oddSt : AState :=
  { config := some strictCfg, events := [oddRow], analyses := [],
    callCount := 0, nextId := 30 }

/-- C9: an importance string outside Low/Medium/High maps to 1, so with
`star_filter` above 1 (and no stored analysis) the event is skipped:
`None`, no external call, no row — the state is unchanged. -/
theorem unknown_importance_treated_low (jp : List Char → Option Value)
    (oracle : Nat → String → Option String) (e : Nat) (m : String)
    (st : AState) (ev : EventRow) (s : String)
    (hs1 : s ≠ "Low") (hs2 : s ≠ "Medium") (hs3 : s ≠ "High")
    (himp : ev.importance = some s)
    (hnone : findExisting st e m = none) (hev : get_event_data st e = some ev)
    (hfilter : 1 < get_star_filter st) :
    get_event_importance ev.importance = 1 ∧
    analyze_economic_event jp oracle e m st = (none, st) := by
  have h1 : get_event_importance ev.importance = 1 := by
    rw [himp]
    show (if s = "Low" then 1 else if s = "Medium" then 2
      else if s = "High" then 3 else 1) = 1
    rw [if_neg hs1, if_neg hs2, if_neg hs3]
  exact ⟨h1, analyze_skip hnone hev (by rw [h1]; exact hfilter)⟩

/-- Witness for C9 at the importance string "Critical". -/
theorem unknown_importance_treated_low_witness :
    get_event_importance oddRow.importance = 1 ∧
    analyze_economic_event jpNone oracleBearish 5 "BTC" oddSt = (none, oddSt) :=
  unknown_importance_treated_low jpNone oracleBearish 5 "BTC" oddSt oddRow
    "Critical" (by decide) (by decide) (by decide) rfl rfl rfl (by decide)

/-! ## Claim C6 -/

/-- A keyless config row. -/
def noKeyCfg : ConfigRow :=
  { llm_api_key := none, llm_model := some "gpt-4o-mini", star_filter := some 1 }

/-- A keyless world with two events dated 2024-01-10. -/
def noKeySt : AState :=
  { config := some noKeyCfg, events := [usdRow, lowRow], analyses := [],
    callCount := 0, nextId := 40 }

/-- Without a usable credential, `analyze_economic_event` leaves the
world untouched: the cached branch returns early, and every other path
stops at `_call_llm_api`'s `if not self.api_key` guard before any
request or write. -/
lemma analyze_no_key_state (jp : List Char → Option Value)
    (oracle : Nat → String → Option String) (e : Nat) (m : String)
    (st : AState) (hkey : apiKeyOk st = false) :
    (analyze_economic_event jp oracle e m st).2 = st := by
  unfold analyze_economic_event
  rcases h1 : findExisting st e m with _ | a
  · rcases h2 : get_event_data st e with _ | ev
    · simp only [h1, h2]
    · simp only [h1, h2]
      split
      · rfl
      · unfold call_llm_api
        rw [if_neg (by rw [hkey]; exact Bool.false_ne_true)]
  · simp only [h1]

/-- Folding the batch body from a keyless world only accumulates
progress tuples and (cached) results; the world never changes. -/
lemma batch_foldl_no_key (jp : List Char → Option Value)
    (oracle : Nat → String → Option String) (m : String) (total : Nat)
    (st : AState) (hkey : apiKeyOk st = false) :
    ∀ (l : List (Nat × EventRow)) (a : List Value) (p : List Progress),
      l.foldl (batchStep jp oracle m total) (a, p, st) =
        (a ++ l.filterMap (fun q => (analyze_economic_event jp oracle q.2.id m st).1),
         p ++ l.map (fun q => (q.1, total, q.2.event_name)), st) := by
  intro l
  induction l with
  | nil => intro a p; simp
  | cons q l ih =>
    intro a p
    rw [List.foldl_cons]
    have hst : (analyze_economic_event jp oracle q.2.id m st).2 = st :=
      analyze_no_key_state jp oracle q.2.id m st hkey
    rcases hr : analyze_economic_event jp oracle q.2.id m st with ⟨r, st2⟩
    have hst2 : st2 = st := by rw [hr] at hst; exact hst
    rw [hst2] at hr
    rcases r with _ | v
    · rw [show batchStep jp oracle m total (a, p, st) q =
          (a, p ++ [(q.1, total, q.2.event_name)], st) from by
        unfold batchStep; dsimp only; rw [hr]]
      rw [ih]
      simp [List.filterMap_cons, hr]
    · rw [show batchStep jp oracle m total (a, p, st) q =
          (a ++ [v], p ++ [(q.1, total, q.2.event_name)], st) from by
        unfold batchStep; dsimp only; rw [hr]]
      rw [ih]
      simp [List.filterMap_cons, hr]

/-- C6 (amended): with no usable API credential, the batch does NOT fail
fast: it still iterates over every event of the date, emitting a
progress tuple for each, while issuing no external call and writing no
row — the world is unchanged and the per-event results are only the
cached ones (none at all, when the store has no matching analyses). -/
theorem no_credential_no_calls_still_iterates (jp : List Char → Option Value)
    (oracle : Nat → String → Option String) (d m : String) (st : AState)
    (hkey : apiKeyOk st = false) :
    (analyze_events_for_date jp oracle d m st).2.2 = st ∧
    (analyze_events_for_date jp oracle d m st).2.1.length =
      (st.events.filter (fun e => e.date == d)).length := by
  unfold analyze_events_for_date
  rw [batch_foldl_no_key jp oracle m _ st hkey]
  constructor
  · rfl
  · simp

/-- Witness for C6 (amended) at a keyless world with two events. -/
theorem no_credential_no_calls_still_iterates_witness :
    (analyze_events_for_date jpNone oracleBearish "2024-01-10" "BTC"
        noKeySt).2.2 = noKeySt ∧
    (analyze_events_for_date jpNone oracleBearish "2024-01-10" "BTC"
        noKeySt).2.1.length =
      (noKeySt.events.filter (fun e => e.date == "2024-01-10")).length :=
  no_credential_no_calls_still_iterates jpNone oracleBearish "2024-01-10" "BTC"
    noKeySt rfl

/-- C6 counterexample: with no credential configured the orchestrator
does NOT fail fast: `analyze_events_for_date` iterates both events of
the date (two progress tuples are emitted), issues no external call,
and returns the ordinary empty list — no run-level error of any kind is
raised. -/
theorem no_credential_still_iterates_counterexample :
    apiKeyOk noKeySt = false ∧
    (analyze_events_for_date jpNone oracleBearish "2024-01-10" "BTC" noKeySt).2.1 =
      [(1, 2, "CPI Release"), (2, 2, "Minor Survey")] ∧
    (analyze_events_for_date jpNone oracleBearish "2024-01-10" "BTC" noKeySt).1 =
      [] ∧
    (analyze_events_for_date jpNone oracleBearish "2024-01-10" "BTC"
        noKeySt).2.2.callCount = 0 :=
  ⟨rfl, rfl, rfl, rfl⟩

/-! ## Claim C4: helper lemmas -/

lemma apiKeyOk_congr {st' st : AState} (h : st'.config = st.config) :
    apiKeyOk st' = apiKeyOk st := by
  unfold apiKeyOk get_api_key
  rw [h]

lemma star_filter_congr {st' st : AState} (h : st'.config = st.config) :
    get_star_filter st' = get_star_filter st := by
  unfold get_star_filter
  rw [h]

/-- The fresh-analysis path: no stored analysis, event found, filter
passed, key usable, oracle answers with a non-empty (truthy) response,
parse relevant — one call is made and the wrapper dict is returned with
the (possibly failed) save's id. -/
lemma analyze_fresh {jp : List Char → Option Value}
    {oracle : Nat → String → Option String} {e : Nat} {m : String}
    {st : AState} {ev : EventRow} {r : String}
    (hnone : findExisting st e m = none) (hev : get_event_data st e = some ev)
    (hfilt : ¬ get_event_importance ev.importance < get_star_filter st)
    (hkey : apiKeyOk st = true)
    (hor : oracle st.callCount (create_analysis_prompt ev m) = some r)
    (hne : r ≠ "")
    (hrel : pyTruthy (dictGetD (parse_analysis jp r) "is_relevant"
      (Value.vBool true)) = true) :
    analyze_economic_event jp oracle e m st =
      (some (Value.vDict [
        ("analysis_id", idValue (save_analysis_to_db e m (parse_analysis jp r)
            { st with callCount := st.callCount + 1 }).1),
        ("event_id", Value.vInt e),
        ("analysis", parse_analysis jp r)]),
       (save_analysis_to_db e m (parse_analysis jp r)
          { st with callCount := st.callCount + 1 }).2) := by
  unfold analyze_economic_event
  simp only [hnone, hev]
  rw [if_neg hfilt]
  unfold call_llm_api
  rw [if_pos hkey]
  simp only [hor]
  rw [if_neg hne]
  simp only [hrel, Bool.not_true]
  rw [if_neg Bool.false_ne_true]

/-- The transport-failure path: the call is made (counted) but the
oracle fails; `None` is returned and nothing is written. -/
lemma analyze_transport {jp : List Char → Option Value}
    {oracle : Nat → String → Option String} {e : Nat} {m : String}
    {st : AState} {ev : EventRow}
    (hnone : findExisting st e m = none) (hev : get_event_data st e = some ev)
    (hfilt : ¬ get_event_importance ev.importance < get_star_filter st)
    (hkey : apiKeyOk st = true)
    (hor : oracle st.callCount (create_analysis_prompt ev m) = none) :
    analyze_economic_event jp oracle e m st =
      (none, { st with callCount := st.callCount + 1 }) := by
  unfold analyze_economic_event
  simp only [hnone, hev]
  rw [if_neg hfilt]
  unfold call_llm_api
  rw [if_pos hkey]
  simp only [hor]

/-- One batch iteration, written out. -/
lemma batchStep_eval (jp : List Char → Option Value)
    (oracle : Nat → String → Option String) (m : String) (total : Nat)
    (a : List Value) (p : List Progress) (st : AState) (i : Nat) (ev : EventRow) :
    batchStep jp oracle m total (a, p, st) (i, ev) =
      match analyze_economic_event jp oracle ev.id m st with
      | (some v, st') => (a ++ [v], p ++ [(i, total, ev.event_name)], st')
      | (none, st') => (a, p ++ [(i, total, ev.event_name)], st') := rfl

/-- The `event_id` field of the fresh-path wrapper dict. -/
lemma getIntField_freshDict (aid : Option Nat) (e : Nat) (v : Value) :
    getIntField (Value.vDict [("analysis_id", idValue aid),
      ("event_id", Value.vInt e), ("analysis", v)]) "event_id" =
      some (e : Int) := rfl

/-- A fresh empty-store world for a batch run. -/
def batchSt (cfg : ConfigRow) (events : List EventRow) (n : Nat) : AState :=
  { config := some cfg, events := events, analyses := [], callCount := 0,
    nextId := n }

/-- C4: a run over a date with 3 events (empty analysis store, usable
credential, all three passing the star filter) in which the 2nd event's
external call fails with a transport error while the calls for events 1
and 3 succeed with non-empty, relevant responses: the batch continues
past the failure, emits the progress tuple (index, total, event name)
for all 3 indices before each attempt, issues all 3 external calls, and
returns exactly the 2 analyses of events 1 and 3 in iteration order. -/
theorem batch_partial_failure (jp : List Char → Option Value)
    (oracle : Nat → String → Option String) (d m : String)
    (e1 e2 e3 : EventRow) (cfg : ConfigRow) (n : Nat) (r1 r3 : String)
    (hd1 : e1.date = d) (hd2 : e2.date = d) (hd3 : e3.date = d)
    (hne12 : e1.id ≠ e2.id) (hne13 : e1.id ≠ e3.id) (hne23 : e2.id ≠ e3.id)
    (hkey : apiKeyOk (batchSt cfg [e1, e2, e3] n) = true)
    (hf1 : ¬ get_event_importance e1.importance <
      get_star_filter (batchSt cfg [e1, e2, e3] n))
    (hf2 : ¬ get_event_importance e2.importance <
      get_star_filter (batchSt cfg [e1, e2, e3] n))
    (hf3 : ¬ get_event_importance e3.importance <
      get_star_filter (batchSt cfg [e1, e2, e3] n))
    (ho1 : oracle 0 (create_analysis_prompt e1 m) = some r1)
    (ho2 : ∀ p, oracle 1 p = none)
    (ho3 : oracle 2 (create_analysis_prompt e3 m) = some r3)
    (hne1 : r1 ≠ "") (hne3 : r3 ≠ "")
    (hr1 : pyTruthy (dictGetD (parse_analysis jp r1) "is_relevant"
      (Value.vBool true)) = true)
    (hr3 : pyTruthy (dictGetD (parse_analysis jp r3) "is_relevant"
      (Value.vBool true)) = true) :
    (analyze_events_for_date jp oracle d m (batchSt cfg [e1, e2, e3] n)).2.1 =
      [(1, 3, e1.event_name), (2, 3, e2.event_name), (3, 3, e3.event_name)] ∧
    (analyze_events_for_date jp oracle d m (batchSt cfg [e1, e2, e3] n)).1.map
        (fun v => getIntField v "event_id") =
      [some (e1.id : Int), some (e3.id : Int)] ∧
    (analyze_events_for_date jp oracle d m
        (batchSt cfg [e1, e2, e3] n)).2.2.callCount = 3 := by
  set st0 := batchSt cfg [e1, e2, e3] n with hst0
  have hev_list : st0.events.filter (fun e => e.date == d) = [e1, e2, e3] := by
    simp [hst0, batchSt, hd1, hd2, hd3]
  have key : analyze_events_for_date jp oracle d m st0 =
      [((1 : Nat), e1), (2, e2), (3, e3)].foldl (batchStep jp oracle m 3)
        ([], [], st0) := by
    unfold analyze_events_for_date
    rw [hev_list]
    rfl
  -- step 1: fresh analysis of e1
  have hnone1 : findExisting st0 e1.id m = none := rfl
  have hev1 : get_event_data st0 e1.id = some e1 := by
    unfold get_event_data
    show List.find? (fun e => e.id == e1.id) [e1, e2, e3] = some e1
    rw [List.find?_cons_of_pos _ (by simp)]
  have ho1' : oracle st0.callCount (create_analysis_prompt e1 m) = some r1 := ho1
  have hstep1 := analyze_fresh hnone1 hev1 hf1 hkey ho1' hne1 hr1
  set P1 := parse_analysis jp r1 with hP1
  set stA := (save_analysis_to_db e1.id m P1
    { st0 with callCount := st0.callCount + 1 }).2 with hstA
  have hcfg1 : stA.config = st0.config := by rw [hstA, save_config]
  have hevs1 : stA.events = st0.events := by rw [hstA, save_events]
  have hcc1 : stA.callCount = 1 := by
    rw [hstA, save_callCount]
    rfl
  have hfe1 : ∀ (x : Nat) (mx : String), x ≠ e1.id → findExisting stA x mx = none := by
    intro x mx hne
    rw [hstA, findExisting_save_ne hne]
    rfl
  -- step 2: transport failure on e2
  have hnone2 : findExisting stA e2.id m = none := hfe1 e2.id m (Ne.symm hne12)
  have hev2 : get_event_data stA e2.id = some e2 := by
    unfold get_event_data
    rw [hevs1]
    show List.find? (fun e => e.id == e2.id) [e1, e2, e3] = some e2
    rw [List.find?_cons_of_neg _ (by simp [hne12]),
      List.find?_cons_of_pos _ (by simp)]
  have hkey2 : apiKeyOk stA = true := by rw [apiKeyOk_congr hcfg1]; exact hkey
  have hf2' : ¬ get_event_importance e2.importance < get_star_filter stA := by
    rw [star_filter_congr hcfg1]; exact hf2
  have ho2' : oracle stA.callCount (create_analysis_prompt e2 m) = none := by
    rw [hcc1]; exact ho2 _
  have hstep2 := @analyze_transport jp oracle e2.id m stA e2 hnone2 hev2 hf2' hkey2 ho2'
  set stB := { stA with callCount := stA.callCount + 1 } with hstB
  have hcfg2 : stB.config = st0.config := hcfg1
  have hevs2 : stB.events = st0.events := hevs1
  have hcc2 : stB.callCount = 2 := by
    show stA.callCount + 1 = 2
    rw [hcc1]
  -- step 3: fresh analysis of e3
  have hnone3 : findExisting stB e3.id m = none := hfe1 e3.id m (Ne.symm hne13)
  have hev3 : get_event_data stB e3.id = some e3 := by
    unfold get_event_data
    rw [show stB.events = st0.events from hevs2]
    show List.find? (fun e => e.id == e3.id) [e1, e2, e3] = some e3
    rw [List.find?_cons_of_neg _ (by simp [hne13]),
      List.find?_cons_of_neg _ (by simp [hne23]),
      List.find?_cons_of_pos _ (by simp)]
  have hkey3 : apiKeyOk stB = true := by rw [apiKeyOk_congr hcfg2]; exact hkey
  have hf3' : ¬ get_event_importance e3.importance < get_star_filter stB := by
    rw [star_filter_congr hcfg2]; exact hf3
  have ho3' : oracle stB.callCount (create_analysis_prompt e3 m) = some r3 := by
    rw [hcc2]; exact ho3
  have hstep3 := analyze_fresh hnone3 hev3 hf3' hkey3 ho3' hne3 hr3
  set P3 := parse_analysis jp r3 with hP3
  set stC := (save_analysis_to_db e3.id m P3
    { stB with callCount := stB.callCount + 1 }).2 with hstC
  have hccC : stC.callCount = 3 := by
    rw [hstC, save_callCount]
    show stB.callCount + 1 = 3
    rw [hcc2]
  -- assemble the three iterations
  have hrun : analyze_events_for_date jp oracle d m st0 =
      ([Value.vDict [("analysis_id", idValue (save_analysis_to_db e1.id m P1
            { st0 with callCount := st0.callCount + 1 }).1),
          ("event_id", Value.vInt e1.id), ("analysis", P1)],
        Value.vDict [("analysis_id", idValue (save_analysis_to_db e3.id m P3
            { stB with callCount := stB.callCount + 1 }).1),
          ("event_id", Value.vInt e3.id), ("analysis", P3)]],
       [(1, 3, e1.event_name), (2, 3, e2.event_name), (3, 3, e3.event_name)],
       stC) := by
    rw [key, List.foldl_cons, batchStep_eval, hstep1]
    dsimp only
    rw [List.foldl_cons, batchStep_eval, hstep2]
    dsimp only
    rw [List.foldl_cons, batchStep_eval, hstep3]
    dsimp only
    rw [List.foldl_nil]
    simp
  rw [hrun]
  refine ⟨rfl, ?_, hccC⟩
  simp [getIntField_freshDict]

/-- An oracle whose second request (index 1) fails with a transport
error; all other requests return a non-JSON relevant response. -/
def oracleFailSecond : Nat → String → Option String :=
  fun i _ => if i = 1 then none else some "impact 7\nbearish"

/-- Witness for C4: three concrete events, second call failing. -/
theorem batch_partial_failure_witness :
    (analyze_events_for_date jpNone oracleFailSecond "2024-01-10" "BTC"
        (batchSt keyCfg [usdRow, lowRow, oddRow] 50)).2.1 =
      [(1, 3, "CPI Release"), (2, 3, "Minor Survey"), (3, 3, "Odd Event")] ∧
    (analyze_events_for_date jpNone oracleFailSecond "2024-01-10" "BTC"
        (batchSt keyCfg [usdRow, lowRow, oddRow] 50)).1.map
        (fun v => getIntField v "event_id") =
      [some (3 : Int), some (5 : Int)] ∧
    (analyze_events_for_date jpNone oracleFailSecond "2024-01-10" "BTC"
        (batchSt keyCfg [usdRow, lowRow, oddRow] 50)).2.2.callCount = 3 :=
  batch_partial_failure jpNone oracleFailSecond "2024-01-10" "BTC"
    usdRow lowRow oddRow keyCfg 50 "impact 7\nbearish" "impact 7\nbearish"
    rfl rfl rfl (by decide) (by decide) (by decide) rfl
    (by decide) (by decide) (by decide)
    rfl (fun _ => rfl) rfl (by decide) (by decide) (by decide) (by decide)

end FomoBot
